import Mathlib

/-!
# Verification of the sports registration hub's quota and role-scoping logic

Shallow embedding of the registration-limit enforcement, role-scoped
visibility, registration workflow and system-settings logic of the
sports registration application, together with proofs of the
specification's claims about them.

The embedding follows the TypeScript source:
* `src/lib/registration-limits.ts` (`fetchRegistrationLimits`,
  `getStudentRegistrationInfo`, `checkRegistrationLimits`),
* the `StudentRegistrationForm` component (`fetchStudents`,
  `isStudentAlreadyRegistered`, `canStudentRegister`, `handleSubmit`,
  `performRegistration`, `handleWarningConfirm`),
* the `Registrations` page (`updateRegistrationStatus`,
  `deleteRegistration`),
* `src/lib/systemSettings.ts` (`fetchSystemSettings`),
* the database migration (`registrations` table with its
  `UNIQUE(student_id, sport_id)` constraint, enum types).
-/

namespace SportsHub

/-- `sport_type` enum from the migration: `'game' | 'athletic'`. -/
inductive SportType where
  | game
  | athletic
deriving DecidableEq, Repr

/-- `registration_status` enum from the migration:
`'pending' | 'approved' | 'rejected'`. -/
inductive RegStatus where
  | pending
  | approved
  | rejected
deriving DecidableEq, Repr

/-- A row of the `students` table (fields the frontend selects).
The academic year is the string stored in the `academic_year` column
(`"first" | "second" | "third" | "fourth"`). -/
structure Student where
  id : String
  name : String
  roll_number : String
  department : String
  year : String
deriving DecidableEq, Repr

/-- A row of the `sports` table (the fields the quota logic reads). -/
structure Sport where
  id : String
  name : String
  type : SportType
deriving DecidableEq, Repr

/-- A row of the `registrations` table. -/
structure Registration where
  id : String
  student_id : String
  sport_id : String
  registered_by : String
  status : RegStatus
deriving DecidableEq, Repr

/-- The `settings` table rows the quota and workflow code reads.
Each field is `none` when the corresponding key is absent; for
`max_game_registrations` / `max_athletic_registrations` the stored JSON
value's `limit` field is modelled as the `Nat` payload, and for
`auto_approve_registrations` the JSON value's `enabled` field as the
`Bool` payload. -/
structure SettingsStore where
  max_game_registrations : Option Nat
  max_athletic_registrations : Option Nat
  auto_approve_enabled : Option Bool
deriving DecidableEq, Repr

/-- The whole persistent state visible to the registration logic. -/
structure DB where
  students : List Student
  sports : List Sport
  registrations : List Registration
  settings : SettingsStore
deriving DecidableEq, Repr

/-- Result type of `fetchRegistrationLimits` in
`src/lib/registration-limits.ts`. -/
structure RegistrationLimits where
  maxGameRegistrations : Nat
  maxAthleticRegistrations : Nat
deriving DecidableEq, Repr

/-- `fetchRegistrationLimits`: reads the two limit settings and defaults a
missing (or falsy, hence in particular zero) value to `0` via
`settingsMap.max_game_registrations?.limit || 0`. -/
def fetchRegistrationLimits (s : SettingsStore) : RegistrationLimits :=
  { maxGameRegistrations := s.max_game_registrations.getD 0
    maxAthleticRegistrations := s.max_athletic_registrations.getD 0 }

/-- The `sportType === 'game' ? limits.maxGameRegistrations :
limits.maxAthleticRegistrations` selection. -/
def limitFor (limits : RegistrationLimits) (t : SportType) : Nat :=
  match t with
  | .game => limits.maxGameRegistrations
  | .athletic => limits.maxAthleticRegistrations

/-- `sports` lookup by id (the `sports!inner(...)` join target). -/
def sportOf (db : DB) (sportId : String) : Option Sport :=
  db.sports.find? (fun sp => sp.id == sportId)

/-- The rows returned by the registrations query in
`getStudentRegistrationInfo`: registrations with `student_id` in
`studentIds` and `status` in `['pending', 'approved']`, inner-joined with
their sport (a registration whose sport is missing produces no row). -/
def regQueryFun (db : DB) (studentIds : List String) (r : Registration) :
    Option (String × Sport) :=
  if studentIds.contains r.student_id &&
      (r.status == RegStatus.pending || r.status == RegStatus.approved) then
    (sportOf db r.sport_id).map (fun sp => (r.student_id, sp))
  else none

/-- The list of rows produced by the query. -/
def regQueryRows (db : DB) (studentIds : List String) :
    List (String × Sport) :=
  db.registrations.filterMap (regQueryFun db studentIds)

/-- `StudentRegistrationInfo` from `src/lib/registration-limits.ts`. -/
structure StudentRegistrationInfo where
  id : String
  name : String
  roll_number : String
  department : String
  year : String
  currentCount : Nat
  limit : Nat
  registrations : List (String × SportType)
deriving DecidableEq, Repr

/-- `getStudentRegistrationInfo`: returns the per-student info list
together with the number of storage queries executed (the early
`if (studentIds.length === 0) return []` path runs zero queries; the
normal path runs three: settings, students, registrations). -/
def getStudentRegistrationInfo (db : DB) (studentIds : List String)
    (sportType : SportType) : List StudentRegistrationInfo × Nat :=
  if studentIds.isEmpty then ([], 0)
  else
    let limits := fetchRegistrationLimits db.settings
    let limit := limitFor limits sportType
    let students := db.students.filter (fun st => studentIds.contains st.id)
    let rows := regQueryRows db studentIds
    let result := students.map fun student =>
      let studentRegistrations := rows.filter (fun row => row.1 == student.id)
      let relevantRegistrations :=
        studentRegistrations.filter (fun row => row.2.type == sportType)
      { id := student.id
        name := student.name
        roll_number := student.roll_number
        department := student.department
        year := student.year
        currentCount := relevantRegistrations.length
        limit := limit
        registrations :=
          relevantRegistrations.map (fun row => (row.2.name, row.2.type)) }
    (result, 3)

/-- Result type of `checkRegistrationLimits`. -/
structure LimitCheckResult where
  studentsAtLimit : List StudentRegistrationInfo
  studentsOverLimit : List StudentRegistrationInfo
  canRegister : Bool
deriving DecidableEq, Repr

/-- `checkRegistrationLimits`: `studentsAtLimit` are those with
`currentCount >= limit`, `studentsOverLimit` those with
`currentCount > limit`; registration proceeds only when no student is at
the limit.  (The TypeScript function also takes the sport type but never
uses it.) -/
def checkRegistrationLimits (students : List StudentRegistrationInfo)
    (_sportType : SportType) : LimitCheckResult :=
  let studentsAtLimit := students.filter (fun s => s.limit ≤ s.currentCount)
  let studentsOverLimit := students.filter (fun s => s.limit < s.currentCount)
  { studentsAtLimit := studentsAtLimit
    studentsOverLimit := studentsOverLimit
    canRegister := studentsAtLimit.length == 0 }

/-- `getStudentsExceedingLimits`: the students flagged by the quota check
(`currentCount >= limit`); the same filter appears inline in
`handleSubmit`. -/
def getStudentsExceedingLimits (students : List StudentRegistrationInfo)
    (_sportType : SportType) : List StudentRegistrationInfo :=
  students.filter (fun s => s.limit ≤ s.currentCount)

/-! ## Ledger operations and the uniqueness constraint -/

/-- Error raised by the persistent store; the only constraint modelled is
`UNIQUE(student_id, sport_id)` on `registrations`. -/
inductive RegError where
  | duplicateRegistration
deriving DecidableEq, Repr

/-- Two registrations collide on the `UNIQUE(student_id, sport_id)`
constraint. -/
def samePair (a b : Registration) : Bool :=
  a.student_id == b.student_id && a.sport_id == b.sport_id

/-- Some two distinct entries of the list collide on the uniqueness
constraint. -/
def hasDupPair : List Registration → Bool
  | [] => false
  | r :: rest => rest.any (samePair r) || hasDupPair rest

/-- Batch insert into the `registrations` table.  The store enforces
`UNIQUE(student_id, sport_id)`: if any new row collides with an existing
row or with another new row, the whole insert fails (all-or-nothing) and
the ledger is unchanged; existing rows are never updated by an insert. -/
def insertRegistrations (ledger : List Registration)
    (new : List Registration) : Except RegError (List Registration) :=
  if new.any (fun r => ledger.any (samePair r)) || hasDupPair new then
    .error .duplicateRegistration
  else
    .ok (ledger ++ new)

/-- `isStudentAlreadyRegistered` from the registration form: the student
already has a registration (any status) for the given sport. -/
def isStudentAlreadyRegistered (ledger : List Registration) (sportId : String)
    (studentId : String) : Bool :=
  (ledger.filter (fun r => r.sport_id == sportId)).any
    (fun r => r.student_id == studentId)

/-- `updateRegistrationStatus` from the `Registrations` page: a supabase
`update({ status }).eq('id', registrationId)`. -/
def updateRegistrationStatus (ledger : List Registration) (regId : String)
    (newStatus : RegStatus) : List Registration :=
  ledger.map (fun r => if r.id == regId then { r with status := newStatus } else r)

/-- `deleteRegistration` from the `Registrations` page: a supabase
`delete().eq('id', registrationId)`. -/
def deleteRegistration (ledger : List Registration) (regId : String) :
    List Registration :=
  ledger.filter (fun r => r.id != regId)

/-! ## Registration workflow (`StudentRegistrationForm`) -/

/-- Outcome of a `handleSubmit` / `performRegistration` invocation. -/
inductive SubmitResult where
  | emptySelection
  | quotaWarning (exceeding : List StudentRegistrationInfo)
  | regSuccess (created : List Registration)
  | regFailure
deriving DecidableEq, Repr

/-- The initial status chosen by `performRegistration`:
`autoApprove = autoApproveSetting?.value?.enabled || false`, then
`initialStatus = autoApprove ? 'approved' : 'pending'`. -/
def autoApproveStatus (settings : SettingsStore) : RegStatus :=
  if settings.auto_approve_enabled.getD false then .approved else .pending

/-- The batch of rows `performRegistration` inserts: one per selected
student, all with the same initial status.  Fresh primary-key ids are
supplied by the store (`gen_random_uuid()`), modelled as the `freshIds`
argument zipped with the selection. -/
def newRegistrationsFor (sport : Sport) (profileId : String)
    (initialStatus : RegStatus) (selected freshIds : List String) :
    List Registration :=
  (selected.zip freshIds).map fun p =>
    { id := p.2
      student_id := p.1
      sport_id := sport.id
      registered_by := profileId
      status := initialStatus }

/-- `performRegistration`: reads the auto-approve setting, builds one
registration per selected student with the chosen initial status and
inserts them as one batch; an insert error leaves the store unchanged
(the TypeScript catches the thrown error and only shows a toast). -/
def performRegistration (db : DB) (sport : Sport) (profileId : String)
    (selected freshIds : List String) : SubmitResult × DB :=
  let initialStatus := autoApproveStatus db.settings
  let newRegs := newRegistrationsFor sport profileId initialStatus selected freshIds
  match insertRegistrations db.registrations newRegs with
  | .error _ => (.regFailure, db)
  | .ok ledger => (.regSuccess newRegs, { db with registrations := ledger })

/-- `handleSubmit`: empty selection aborts; otherwise the quota check runs
(`getStudentRegistrationInfo` + the `currentCount >= limit` filter). If
any selected student is at or over the limit the warning dialog is shown
and nothing is written; otherwise `performRegistration` runs. -/
def handleSubmit (db : DB) (sport : Sport) (profileId : String)
    (selected freshIds : List String) : SubmitResult × DB :=
  if selected.isEmpty then (.emptySelection, db)
  else
    let studentInfo := (getStudentRegistrationInfo db selected sport.type).1
    let studentsExceeding := studentInfo.filter (fun s => s.limit ≤ s.currentCount)
    if !studentsExceeding.isEmpty then
      (.quotaWarning studentsExceeding, db)
    else
      performRegistration db sport profileId selected freshIds

/-- `handleWarningConfirm`: the user confirmed the quota warning dialog;
the registration is performed despite the exceeded limits. -/
def handleWarningConfirm (db : DB) (sport : Sport) (profileId : String)
    (selected freshIds : List String) : SubmitResult × DB :=
  performRegistration db sport profileId selected freshIds

/-! ## Role scoping -/

/-- JavaScript `String.prototype.replace` with a plain-string pattern
replaces only the first occurrence of the pattern (an empty pattern
matches at the start). -/
def replaceFirst (s pat repl : List Char) : List Char :=
  match s with
  | [] => if pat == [] then repl else []
  | c :: rest =>
    if pat.isPrefixOf s then repl ++ s.drop pat.length
    else c :: replaceFirst rest pat repl

/-- The year derivation used throughout the frontend:
`profile.role.replace('_coordinator', '').replace('_year', '')`. -/
def deriveYear (role : String) : String :=
  String.mk (replaceFirst (replaceFirst role.data "_coordinator".data [])
    "_year".data [])

/-- The `USER_ROLES.ADMIN` constant from `src/lib/constants.ts`. -/
def ADMIN_ROLE : String := "admin"

/-- `fetchStudents` from the registration form: an admin fetches no
students (registration is coordinator work); a coordinator fetches
exactly the students whose `year` equals the year derived from their
role string. -/
def fetchStudents (role : String) (allStudents : List Student) :
    List Student :=
  if role == ADMIN_ROLE then []
  else allStudents.filter (fun s => s.year == deriveYear role)

/-- The role-based visibility filter of the `Registrations` page (and the
dashboard's student count): admin sees every row, a coordinator only
rows whose student year equals the year derived from their role. -/
def visibleTo (role : String) (studentYear : String) : Bool :=
  if role == ADMIN_ROLE then true else studentYear == deriveYear role

/-! ## Ledger step relation and reachability

The operations of the application that mutate the `registrations` table:
* batch insert via `performRegistration` (initial status `pending` or
  `approved`, fresh primary keys generated by the store);
* `updateRegistrationStatus`, reachable in the UI only through the
  Approve / Reject buttons, which render solely for
  `profile.role === USER_ROLES.ADMIN && registration.status === 'pending'`
  and pass `newStatus: 'approved' | 'rejected'`;
* `deleteRegistration` (admin or the owning coordinator).
-/

/-- One application-level mutation of the registrations ledger, tagged
with the acting role. -/
inductive LedgerStep : String → List Registration → List Registration → Prop
  | register (role : String) (ledger new next : List Registration)
      (hstatus : ∀ r ∈ new, r.status = .pending ∨ r.status = .approved)
      (hfresh : ∀ r ∈ new, ∀ r0 ∈ ledger, r.id ≠ r0.id)
      (hins : insertRegistrations ledger new = .ok next) :
      LedgerStep role ledger next
  | updateStatus (role : String) (ledger : List Registration) (regId : String)
      (newStatus : RegStatus)
      (hrole : role = ADMIN_ROLE)
      (hnew : newStatus = .approved ∨ newStatus = .rejected)
      (hpend : ∀ r ∈ ledger, r.id = regId → r.status = .pending) :
      LedgerStep role ledger (updateRegistrationStatus ledger regId newStatus)
  | delete (role : String) (ledger : List Registration) (regId : String) :
      LedgerStep role ledger (deleteRegistration ledger regId)

/-- States of the registrations ledger reachable from the empty table
through application operations. -/
inductive Reachable : List Registration → Prop
  | init : Reachable []
  | step (role : String) (l l' : List Registration) :
      Reachable l → LedgerStep role l l' → Reachable l'

/-- The status of the registration with the given primary key, if any. -/
def statusOf (ledger : List Registration) (regId : String) :
    Option RegStatus :=
  (ledger.find? (fun r => r.id == regId)).map (fun r => r.status)

/-! ## System settings (`fetchSystemSettings`) -/

/-- A JSON value, as stored in the `settings.value` JSONB column. -/
inductive Json where
  | jbool (b : Bool)
  | jnum (n : Int)
  | jstr (s : String)
  | jnull
deriving DecidableEq, Repr

/-- The JSONB value of the `sign_up_enabled` settings row: its `enabled`
field may be absent or hold any JSON value. -/
structure SignUpSettingValue where
  enabled : Option Json
deriving DecidableEq, Repr

/-- `SystemSettings` from `src/lib/systemSettings.ts`. -/
structure SystemSettings where
  signUpEnabled : Bool
deriving DecidableEq, Repr

/-- `fetchSystemSettings`: the storage read either fails (the thrown
error is caught and the defaults are returned) or yields the optional
`sign_up_enabled` row.  On success the result is
`settingsMap.sign_up_enabled?.enabled !== false`, i.e. `signUpEnabled`
is `false` exactly when the row is present and its `enabled` field is
the JSON literal `false`.  The function is total: every outcome yields a
`SystemSettings` value. -/
def fetchSystemSettings (read : Except Unit (Option SignUpSettingValue)) :
    SystemSettings :=
  match read with
  | .error _ => { signUpEnabled := true }
  | .ok row =>
    let enabledVal : Option Json := row.bind (fun v => v.enabled)
    { signUpEnabled := !(enabledVal == some (Json.jbool false)) }

/-! ## Specification-side counting functions

These two definitions follow the specification's words (the quota counts
"non-rejected" registrations, equivalently those with status `pending`
or `approved`, in the sport's category); the theorems below compare them
with the count computed by the embedded `getStudentRegistrationInfo`. -/

/-- The category of a registration's sport, when the sport exists. -/
def categoryOf (db : DB) (r : Registration) : Option SportType :=
  (sportOf db r.sport_id).map (fun sp => sp.type)

/-- Number of the student's registrations in the category with status
`pending` or `approved` (the specification's quota count for C5). -/
def pendingApprovedCount (db : DB) (sid : String) (t : SportType) : Nat :=
  (db.registrations.filter (fun r =>
    r.student_id == sid &&
    (r.status == RegStatus.pending || r.status == RegStatus.approved) &&
    categoryOf db r == some t)).length

/-- Number of the student's non-rejected registrations in the category
(the specification's quota count for C2). -/
def nonRejectedCount (db : DB) (sid : String) (t : SportType) : Nat :=
  (db.registrations.filter (fun r =>
    r.student_id == sid &&
    !(r.status == RegStatus.rejected) &&
    categoryOf db r == some t)).length

/-! ## Concrete fixtures

Small concrete values used by the witness and counterexample theorems. -/

/-- A concrete student. -/
def studentAsha : Student :=
  { id := "s1", name := "Asha", roll_number := "R1", department := "CS",
    year := "first" }

/-- A second concrete student. -/
def studentBen : Student :=
  { id := "s2", name := "Ben", roll_number := "R2", department := "CS",
    year := "first" }

/-- A concrete game-type sport. -/
def sportChess : Sport := { id := "sp1", name := "Chess", type := .game }

/-- A second concrete game-type sport. -/
def sportCarrom : Sport := { id := "sp2", name := "Carrom", type := .game }

/-- A settings table with no rows. -/
def noSettings : SettingsStore :=
  { max_game_registrations := none, max_athletic_registrations := none,
    auto_approve_enabled := none }

/-- A settings table with both limits configured to 1. -/
def limitOneSettings : SettingsStore :=
  { max_game_registrations := some 1, max_athletic_registrations := some 1,
    auto_approve_enabled := some false }

/-- Quota info of a student with no registrations and no configured
limit (so `limit = 0` after the default). -/
def infoZeroLimit : StudentRegistrationInfo :=
  { id := "s1", name := "Asha", roll_number := "R1", department := "CS",
    year := "first", currentCount := 0, limit := 0, registrations := [] }

/-- An approved registration of Asha for Chess. -/
def regAshaChess : Registration :=
  { id := "n1", student_id := "s1", sport_id := "sp1",
    registered_by := "p1", status := .approved }

/-- A pending registration of Asha for Carrom. -/
def regAshaCarrom : Registration :=
  { id := "n2", student_id := "s1", sport_id := "sp2",
    registered_by := "p1", status := .pending }

/-- A database with one student, two sports, one approved registration
and per-category limits of 1. -/
def dbOne : DB :=
  { students := [studentAsha], sports := [sportChess, sportCarrom],
    registrations := [regAshaChess], settings := limitOneSettings }

/-- A database with one student, one sport, no registrations and no
configured settings. -/
def dbEmptyNoSettings : DB :=
  { students := [studentAsha], sports := [sportChess],
    registrations := [], settings := noSettings }

/-- A database with two students, two sports, one approved registration
and auto-approve enabled. -/
def dbAuto : DB :=
  { students := [studentAsha, studentBen], sports := [sportChess, sportCarrom],
    registrations := [regAshaChess],
    settings := { max_game_registrations := some 1,
                  max_athletic_registrations := some 1,
                  auto_approve_enabled := some true } }

/-- The registration created for Ben and Carrom under auto-approve. -/
def regBenCarrom : Registration :=
  { id := "n9", student_id := "s2", sport_id := "sp2",
    registered_by := "p1", status := .approved }

/-- The database `dbAuto` after registering Ben for Carrom. -/
def dbAutoAfter : DB :=
  { students := [studentAsha, studentBen], sports := [sportChess, sportCarrom],
    registrations := [regAshaChess, regBenCarrom],
    settings := { max_game_registrations := some 1,
                  max_athletic_registrations := some 1,
                  auto_approve_enabled := some true } }

/-- The quota info `getStudentRegistrationInfo dbOne ["s1"] .game`
produces for Asha: one approved game registration against a limit of 1. -/
def infoAsha : StudentRegistrationInfo :=
  { id := "s1", name := "Asha", roll_number := "R1", department := "CS",
    year := "first", currentCount := 1, limit := 1,
    registrations := [("Chess", SportType.game)] }

/-! ## Theorems -/

/-- C9: for the empty set of student ids the quota evaluator
(`getStudentRegistrationInfo`) returns an empty result and performs no
storage query (the early-return path runs before any query). -/
theorem empty_selection_no_query (db : DB) (t : SportType) :
    getStudentRegistrationInfo db [] t = ([], 0) := rfl

/-- C1 counterexample: with no limit configured (so
`fetchRegistrationLimits` defaults both limits to 0), a student with
zero registrations is reported at the limit (`exceeded = true`) by
`checkRegistrationLimits`, by `getStudentsExceedingLimits`, and by
`handleSubmit` (which returns the quota warning instead of registering)
— refuting the claim that a limit of 0 yields `exceeded = false` for
every student. -/
theorem limit_zero_reported_exceeded_cex :
    fetchRegistrationLimits noSettings =
      { maxGameRegistrations := 0, maxAthleticRegistrations := 0 } ∧
    (checkRegistrationLimits [infoZeroLimit] .game).studentsAtLimit =
      [infoZeroLimit] ∧
    (checkRegistrationLimits [infoZeroLimit] .game).canRegister = false ∧
    (handleSubmit dbEmptyNoSettings sportChess "p1" ["s1"] ["n1"]).1 =
      SubmitResult.quotaWarning [infoZeroLimit] := by
  refine ⟨rfl, by decide, by decide, by decide⟩

/-- C1 amended: when the configured limit of the category is 0 (including
the default taken when the setting is missing), the quota check flags
every student as at the limit — `currentCount >= 0` always holds — so a
limit of 0 blocks eligibility rather than disabling enforcement. -/
theorem limit_zero_means_always_exceeded
    (students : List StudentRegistrationInfo) (t : SportType)
    (h : ∀ s ∈ students, s.limit = 0) :
    (checkRegistrationLimits students t).studentsAtLimit = students ∧
    (checkRegistrationLimits students t).canRegister = students.isEmpty := by
  have hfilter : students.filter (fun s => s.limit ≤ s.currentCount) = students := by
    rw [List.filter_eq_self]
    intro s hs
    have := h s hs
    simp [this]
  constructor
  · simpa [checkRegistrationLimits] using hfilter
  · simp only [checkRegistrationLimits, hfilter]
    cases students <;> rfl

/-- Witness for the amended C1 theorem at a concrete input. -/
theorem limit_zero_means_always_exceeded_witness :
    (checkRegistrationLimits [infoZeroLimit] .athletic).studentsAtLimit =
      [infoZeroLimit] ∧
    (checkRegistrationLimits [infoZeroLimit] .athletic).canRegister =
      [infoZeroLimit].isEmpty :=
  limit_zero_means_always_exceeded [infoZeroLimit] .athletic (by decide)

/-- C10: `fetchSystemSettings` totalises every storage outcome: a failed
read or an absent `sign_up_enabled` row yields `signUpEnabled = true`,
and `signUpEnabled = false` holds exactly when the row is present with
`enabled` equal to the JSON literal `false`. -/
theorem fetchSystemSettings_defaults :
    (∀ e : Unit, fetchSystemSettings (.error e) = { signUpEnabled := true }) ∧
    (fetchSystemSettings (.ok none) = { signUpEnabled := true }) ∧
    (∀ read : Except Unit (Option SignUpSettingValue),
       (fetchSystemSettings read).signUpEnabled = false ↔
         ∃ v : SignUpSettingValue, read = .ok (some v) ∧
           v.enabled = some (Json.jbool false)) := by
  refine ⟨fun e => rfl, rfl, fun read => ?_⟩
  match read with
  | .error e => simp [fetchSystemSettings]
  | .ok none => simp [fetchSystemSettings]
  | .ok (some v) =>
    simp only [fetchSystemSettings, Option.bind_some, Bool.not_eq_false']
    constructor
    · intro hb
      exact ⟨v, rfl, by simpa using hb⟩
    · rintro ⟨w, hw, he⟩
      cases hw
      simp [he]

/-- C7: on a successful batch, every created registration carries the
initial status chosen from the auto-approve setting — `approved` when
the setting is enabled, `pending` when it is disabled or absent — and
all registrations of the batch share that status. -/
theorem initial_status_matches_auto_approve (db : DB) (sport : Sport)
    (pid : String) (selected freshIds : List String)
    (created : List Registration) (db' : DB)
    (hrun : performRegistration db sport pid selected freshIds =
      (.regSuccess created, db')) :
    (db.settings.auto_approve_enabled = some true →
       ∀ r ∈ created, r.status = .approved) ∧
    (db.settings.auto_approve_enabled ≠ some true →
       ∀ r ∈ created, r.status = .pending) ∧
    (∀ r ∈ created, ∀ r2 ∈ created, r.status = r2.status) := by
  have hcreated : created =
      newRegistrationsFor sport pid (autoApproveStatus db.settings)
        selected freshIds := by
    simp only [performRegistration] at hrun
    split at hrun
    · simp at hrun
    · simp only [Prod.mk.injEq, SubmitResult.regSuccess.injEq] at hrun
      exact hrun.1.symm
  have hall : ∀ r ∈ created, r.status = autoApproveStatus db.settings := by
    intro r hr
    rw [hcreated] at hr
    unfold newRegistrationsFor at hr
    rcases List.mem_map.mp hr with ⟨p, _, rfl⟩
    rfl
  refine ⟨fun hen r hr => ?_, fun hdis r hr => ?_, fun r hr r2 hr2 => ?_⟩
  · rw [hall r hr]
    unfold autoApproveStatus
    rw [hen]
    rfl
  · rw [hall r hr]
    unfold autoApproveStatus
    rcases hv : db.settings.auto_approve_enabled with _ | b
    · rfl
    · cases b
      · rfl
      · exact absurd hv hdis
  · rw [hall r hr, hall r2 hr2]

/-- Witness for C7: a concrete successful batch with auto-approve
enabled yields `approved` registrations. -/
theorem initial_status_matches_auto_approve_witness :
    (dbAuto.settings.auto_approve_enabled = some true →
       ∀ r ∈ [regBenCarrom], r.status = RegStatus.approved) ∧
    (dbAuto.settings.auto_approve_enabled ≠ some true →
       ∀ r ∈ [regBenCarrom], r.status = RegStatus.pending) ∧
    (∀ r ∈ [regBenCarrom], ∀ r2 ∈ [regBenCarrom], r.status = r2.status) :=
  initial_status_matches_auto_approve dbAuto sportCarrom "p1" ["s2"] ["n9"]
    [regBenCarrom] dbAutoAfter (by decide)

/-- Counting helper: for a requested student, the registration rows of
the quota query that survive the per-student and per-category filters
are in bijection with the student's pending-or-approved registrations in
the category, so the two counts agree.  Stated over an arbitrary
registrations list so that it can be proved by induction. -/
theorem regRows_count (db : DB) (ids : List String) (sid : String)
    (t : SportType) (hmem : ids.contains sid = true) :
    ∀ l : List Registration,
      (((l.filterMap (regQueryFun db ids)).filter
          (fun row => row.1 == sid)).filter
          (fun row => row.2.type == t)).length
        = (l.filter (fun r =>
            r.student_id == sid &&
            (r.status == RegStatus.pending ||
              r.status == RegStatus.approved) &&
            categoryOf db r == some t)).length := by
  intro l
  induction l with
  | nil => rfl
  | cons r rest ih =>
    by_cases hc : (ids.contains r.student_id &&
        (r.status == RegStatus.pending ||
          r.status == RegStatus.approved)) = true
    · have hst : (r.status == RegStatus.pending ||
          r.status == RegStatus.approved) = true := by
        revert hc
        cases (r.status == RegStatus.pending ||
          r.status == RegStatus.approved) <;> simp
      rcases hsp : sportOf db r.sport_id with _ | sp
      · have hf : regQueryFun db ids r = none := by
          unfold regQueryFun
          rw [if_pos hc, hsp]; rfl
        rw [List.filterMap_cons_none hf,
          List.filter_cons_of_neg (by simp [categoryOf, hsp])]
        exact ih
      · have hf : regQueryFun db ids r = some (r.student_id, sp) := by
          unfold regQueryFun
          rw [if_pos hc, hsp]; rfl
        rw [List.filterMap_cons_some hf]
        by_cases hsid : r.student_id = sid
        · rw [List.filter_cons_of_pos (by simp [hsid])]
          by_cases htyp : sp.type = t
          · rw [List.filter_cons_of_pos (by simp [htyp]),
              List.filter_cons_of_pos
                (by simp [categoryOf, hsp, hsid, hst, htyp]),
              List.length_cons, List.length_cons, ih]
          · rw [List.filter_cons_of_neg (by simp [htyp]),
              List.filter_cons_of_neg (by simp [categoryOf, hsp, htyp])]
            exact ih
        · rw [List.filter_cons_of_neg (by simp [hsid]),
            List.filter_cons_of_neg (by simp [hsid])]
          exact ih
    · have hf : regQueryFun db ids r = none := by
        unfold regQueryFun
        rw [if_neg]
        simpa using hc
      rw [List.filterMap_cons_none hf]
      by_cases hsid : r.student_id = sid
      · have hcont : ids.contains r.student_id = true := by
          rw [hsid]; exact hmem
        have hstf : (r.status == RegStatus.pending ||
            r.status == RegStatus.approved) = false := by
          revert hc
          rw [hcont]
          cases (r.status == RegStatus.pending ||
            r.status == RegStatus.approved) <;> simp
        rw [List.filter_cons_of_neg (by simp [hstf])]
        exact ih
      · rw [List.filter_cons_of_neg (by simp [hsid])]
        exact ih

/-- Every info entry produced by `getStudentRegistrationInfo` belongs to a
requested student, carries the configured category limit, and its
`currentCount` equals the number of that student's pending-or-approved
registrations in the category. -/
theorem mem_info_spec (db : DB) (ids : List String) (t : SportType)
    (info : StudentRegistrationInfo)
    (hinfo : info ∈ (getStudentRegistrationInfo db ids t).1) :
    ids.contains info.id = true ∧
    info.limit = limitFor (fetchRegistrationLimits db.settings) t ∧
    info.currentCount = pendingApprovedCount db info.id t := by
  unfold getStudentRegistrationInfo at hinfo
  by_cases hemp : ids.isEmpty
  · rw [if_pos hemp] at hinfo
    simp at hinfo
  · rw [if_neg hemp] at hinfo
    dsimp only at hinfo
    rcases List.mem_map.mp hinfo with ⟨student, hstud, rfl⟩
    have hcont : ids.contains student.id = true :=
      (List.mem_filter.mp hstud).2
    refine ⟨hcont, rfl, ?_⟩
    have := regRows_count db ids student.id t hcont db.registrations
    simpa [regQueryRows, pendingApprovedCount] using this

/-- The three registration statuses make "non-rejected" and "pending or
approved" the same filter. -/
theorem nonRejected_eq_pendingApproved (db : DB) (sid : String)
    (t : SportType) :
    nonRejectedCount db sid t = pendingApprovedCount db sid t := by
  unfold nonRejectedCount pendingApprovedCount
  congr 1
  apply List.filter_congr
  intro r _
  cases r.status <;> rfl

/-- C2: for a configured limit `N > 0`, the quota check flags a student
as exceeded precisely when their count of non-rejected registrations in
the target category is at least `N`; the comparison is the inclusive
`currentCount >= limit`, so a student holding exactly `N` such
registrations is flagged. -/
theorem exceeded_iff_count_ge_limit (db : DB) (ids : List String)
    (t : SportType)
    (hpos : 0 < limitFor (fetchRegistrationLimits db.settings) t) :
    ∀ info ∈ (getStudentRegistrationInfo db ids t).1,
      info.currentCount = nonRejectedCount db info.id t ∧
      (info ∈ (checkRegistrationLimits
          (getStudentRegistrationInfo db ids t).1 t).studentsAtLimit ↔
        limitFor (fetchRegistrationLimits db.settings) t ≤
          nonRejectedCount db info.id t) := by
  intro info hinfo
  obtain ⟨hcont, hlim, hcnt⟩ := mem_info_spec db ids t info hinfo
  have hnr : nonRejectedCount db info.id t
      = pendingApprovedCount db info.id t :=
    nonRejected_eq_pendingApproved db info.id t
  have hkey : info.limit ≤ info.currentCount ↔
      limitFor (fetchRegistrationLimits db.settings) t ≤
        nonRejectedCount db info.id t := by
    rw [hlim, hcnt, hnr]
  refine ⟨by rw [hcnt, hnr], ?_⟩
  unfold checkRegistrationLimits
  dsimp only
  rw [List.mem_filter]
  constructor
  · rintro ⟨_, hle⟩
    exact hkey.mp (by simpa using hle)
  · intro h
    exact ⟨hinfo, by simpa using hkey.mpr h⟩

/-- Witness for C2 at a concrete database: Asha holds exactly 1 approved
game registration against a game limit of 1 and is flagged exceeded. -/
theorem exceeded_iff_count_ge_limit_witness :
    infoAsha.currentCount = nonRejectedCount dbOne infoAsha.id SportType.game ∧
    (infoAsha ∈ (checkRegistrationLimits
        (getStudentRegistrationInfo dbOne ["s1"] SportType.game).1
        SportType.game).studentsAtLimit ↔
      limitFor (fetchRegistrationLimits dbOne.settings) SportType.game ≤
        nonRejectedCount dbOne infoAsha.id SportType.game) :=
  exceeded_iff_count_ge_limit dbOne ["s1"] SportType.game (by decide)
    infoAsha (by decide)

/-- C5: the quota count of every student equals the number of their
registrations in the category with status `pending` or `approved`;
adding a rejected registration changes nothing, and after a deletion the
count ranges over the remaining ledger only (so rejected and deleted
registrations contribute zero). -/
theorem quota_count_pending_approved (db : DB) (ids : List String)
    (t : SportType) :
    (∀ info ∈ (getStudentRegistrationInfo db ids t).1,
       info.currentCount = pendingApprovedCount db info.id t) ∧
    (∀ r : Registration, r.status = .rejected →
       getStudentRegistrationInfo
           { db with registrations := r :: db.registrations } ids t
         = getStudentRegistrationInfo db ids t) ∧
    (∀ regId : String,
       ∀ info ∈ (getStudentRegistrationInfo
           { db with registrations :=
               deleteRegistration db.registrations regId } ids t).1,
         info.currentCount =
           pendingApprovedCount
             { db with registrations :=
                 deleteRegistration db.registrations regId } info.id t) := by
  refine ⟨fun info hinfo => (mem_info_spec db ids t info hinfo).2.2,
    fun r hr => ?_, fun regId info hinfo =>
      (mem_info_spec _ ids t info hinfo).2.2⟩
  unfold getStudentRegistrationInfo
  by_cases hemp : ids.isEmpty
  · rw [if_pos hemp, if_pos hemp]
  · rw [if_neg hemp, if_neg hemp]
    have hrows : regQueryRows
        { db with registrations := r :: db.registrations } ids
        = regQueryRows db ids := by
      unfold regQueryRows
      show List.filterMap (regQueryFun db ids) (r :: db.registrations)
          = List.filterMap (regQueryFun db ids) db.registrations
      apply List.filterMap_cons_none
      unfold regQueryFun
      rw [hr]
      simp
    dsimp only
    rw [hrows]

/-- Witness for C5 at a concrete database. -/
theorem quota_count_pending_approved_witness :
    infoAsha.currentCount = pendingApprovedCount dbOne infoAsha.id
      SportType.game :=
  (quota_count_pending_approved dbOne ["s1"] SportType.game).1 infoAsha
    (by decide)

/-- A batch built for pairwise-distinct students contains no internal
collision on the `(student_id, sport_id)` constraint: all rows share the
sport, so a collision would need a repeated student. -/
theorem hasDupPair_newRegs (sport : Sport) (pid : String) (st : RegStatus) :
    ∀ selected freshIds : List String, selected.Nodup →
      hasDupPair (newRegistrationsFor sport pid st selected freshIds)
        = false := by
  intro selected
  induction selected with
  | nil => intro freshIds _; rfl
  | cons s ss ih =>
    intro freshIds hnd
    cases freshIds with
    | nil => rfl
    | cons f fs =>
      unfold newRegistrationsFor
      rw [List.zip_cons_cons, List.map_cons]
      show (_ || _) = false
      rw [Bool.or_eq_false_iff]
      constructor
      · rw [List.any_eq_false]
        intro r hr
        rcases List.mem_map.mp hr with ⟨p, hp, rfl⟩
        have hsel : p.1 ∈ ss := (List.of_mem_zip hp).1
        have hne : s ≠ p.1 := fun h => (List.nodup_cons.mp hnd).1 (h ▸ hsel)
        intro hpair
        rcases Bool.and_eq_true_iff.mp hpair with ⟨h1, _⟩
        exact hne (eq_of_beq h1)
      · exact ih fs (List.nodup_cons.mp hnd).2

/-- If no selected student is already registered for the sport, the new
batch collides with no existing ledger row. -/
theorem newRegs_no_existing_pair (ledger : List Registration) (sport : Sport)
    (pid : String) (st : RegStatus) (selected freshIds : List String)
    (hnot : ∀ sid ∈ selected,
      isStudentAlreadyRegistered ledger sport.id sid = false) :
    (newRegistrationsFor sport pid st selected freshIds).any
      (fun r => ledger.any (samePair r)) = false := by
  rw [List.any_eq_false]
  intro r hr
  unfold newRegistrationsFor at hr
  rcases List.mem_map.mp hr with ⟨p, hp, rfl⟩
  have hsel : p.1 ∈ selected := (List.of_mem_zip hp).1
  have hreg := hnot p.1 hsel
  intro hany
  rcases List.any_eq_true.mp hany with ⟨r0, hr0, hpair⟩
  rcases Bool.and_eq_true_iff.mp hpair with ⟨h1, h2⟩
  have hsid : p.1 = r0.student_id := eq_of_beq h1
  have hspid : sport.id = r0.sport_id := eq_of_beq h2
  have : isStudentAlreadyRegistered ledger sport.id p.1 = true := by
    unfold isStudentAlreadyRegistered
    rw [List.any_eq_true]
    refine ⟨r0, List.mem_filter.mpr ⟨hr0, ?_⟩, ?_⟩
    · exact beq_iff_eq.mpr hspid.symm
    · exact beq_iff_eq.mpr hsid.symm
  rw [this] at hreg
  exact Bool.noConfusion hreg

/-- C3: a non-empty submission containing at least one student at or over
the category limit returns the quota warning naming exactly the
exceeding students and writes nothing; confirming the warning
(the quota override) re-runs the registration and, for a duplicate-free
selection of not-yet-registered students, creates exactly one
registration per selected student. -/
theorem quota_warning_two_phase (db : DB) (sport : Sport) (pid : String)
    (selected freshIds : List String)
    (hne : selected ≠ [])
    (hexc : (getStudentRegistrationInfo db selected sport.type).1.filter
        (fun s => s.limit ≤ s.currentCount) ≠ []) :
    handleSubmit db sport pid selected freshIds =
      (SubmitResult.quotaWarning
        ((getStudentRegistrationInfo db selected sport.type).1.filter
          (fun s => s.limit ≤ s.currentCount)), db) ∧
    (selected.Nodup →
     freshIds.length = selected.length →
     (∀ sid ∈ selected,
        isStudentAlreadyRegistered db.registrations sport.id sid = false) →
     ∃ created : List Registration,
       handleWarningConfirm db sport pid selected freshIds =
         (SubmitResult.regSuccess created,
           { db with registrations := db.registrations ++ created }) ∧
       created.map (fun r => r.student_id) = selected ∧
       created.length = selected.length ∧
       (∀ r ∈ created, r.sport_id = sport.id)) := by
  constructor
  · unfold handleSubmit
    rw [if_neg (by simpa [List.isEmpty_iff] using hne)]
    dsimp only
    rw [if_pos (by simpa [List.isEmpty_iff] using hexc)]
  · intro hnd hlen hnot
    refine ⟨newRegistrationsFor sport pid (autoApproveStatus db.settings)
      selected freshIds, ?_, ?_, ?_, ?_⟩
    · have hcond : ((newRegistrationsFor sport pid
          (autoApproveStatus db.settings) selected freshIds).any
            (fun r => db.registrations.any (samePair r))
          || hasDupPair (newRegistrationsFor sport pid
              (autoApproveStatus db.settings) selected freshIds)) = false := by
        rw [Bool.or_eq_false_iff]
        exact ⟨newRegs_no_existing_pair db.registrations sport pid
            (autoApproveStatus db.settings) selected freshIds hnot,
          hasDupPair_newRegs sport pid (autoApproveStatus db.settings)
            selected freshIds hnd⟩
      have hins : insertRegistrations db.registrations
          (newRegistrationsFor sport pid (autoApproveStatus db.settings)
            selected freshIds)
          = Except.ok (db.registrations ++
              newRegistrationsFor sport pid (autoApproveStatus db.settings)
                selected freshIds) := by
        unfold insertRegistrations
        rw [if_neg (by rw [hcond]; simp)]
      simp only [handleWarningConfirm, performRegistration, hins]
    · unfold newRegistrationsFor
      rw [List.map_map]
      have : ((fun r : Registration => r.student_id) ∘ fun p : String × String =>
          ({ id := p.2, student_id := p.1, sport_id := sport.id,
             registered_by := pid,
             status := autoApproveStatus db.settings } : Registration))
          = Prod.fst := rfl
      rw [this]
      exact List.map_fst_zip selected freshIds (le_of_eq hlen.symm)
    · unfold newRegistrationsFor
      rw [List.length_map, List.length_zip, hlen, Nat.min_self]
    · intro r hr
      unfold newRegistrationsFor at hr
      rcases List.mem_map.mp hr with ⟨p, _, rfl⟩
      rfl

/-- Witness for C3 at a concrete database: Asha is at the game limit, so
submitting her for a second game sport warns and writes nothing, and the
confirmed override creates her registration. -/
theorem quota_warning_two_phase_witness :
    (handleSubmit dbOne sportCarrom "p1" ["s1"] ["n2"] =
      (SubmitResult.quotaWarning
        ((getStudentRegistrationInfo dbOne ["s1"] sportCarrom.type).1.filter
          (fun s => s.limit ≤ s.currentCount)), dbOne)) ∧
    ((["s1"] : List String).Nodup →
     (["n2"] : List String).length = (["s1"] : List String).length →
     (∀ sid ∈ (["s1"] : List String),
        isStudentAlreadyRegistered dbOne.registrations sportCarrom.id sid
          = false) →
     ∃ created : List Registration,
       handleWarningConfirm dbOne sportCarrom "p1" ["s1"] ["n2"] =
         (SubmitResult.regSuccess created,
           { dbOne with registrations := dbOne.registrations ++ created }) ∧
       created.map (fun r => r.student_id) = ["s1"] ∧
       created.length = (["s1"] : List String).length ∧
       (∀ r ∈ created, r.sport_id = sportCarrom.id)) :=
  quota_warning_two_phase dbOne sportCarrom "p1" ["s1"] ["n2"]
    (by decide) (by decide)

/-- `samePair` is symmetric. -/
theorem samePair_comm (a b : Registration) : samePair a b = samePair b a := by
  unfold samePair
  rw [@Bool.beq_comm _ _ _ a.student_id b.student_id,
    @Bool.beq_comm _ _ _ a.sport_id b.sport_id]

/-- `hasDupPair` is the boolean form of "no two entries collide on the
uniqueness constraint". -/
theorem hasDupPair_eq_false_iff (l : List Registration) :
    hasDupPair l = false ↔ l.Pairwise (fun a b => samePair a b = false) := by
  induction l with
  | nil => simp [hasDupPair]
  | cons r rest ih =>
    rw [hasDupPair, Bool.or_eq_false_iff, List.pairwise_cons, ih]
    constructor
    · rintro ⟨hany, hp⟩
      exact ⟨fun b hb =>
        Bool.eq_false_iff.mpr (List.any_eq_false.mp hany b hb), hp⟩
    · rintro ⟨hb, hp⟩
      exact ⟨List.any_eq_false.mpr fun b hbm =>
        Bool.eq_false_iff.mp (hb b hbm), hp⟩

/-- Every application-level ledger mutation preserves pairwise
distinctness of the `(student_id, sport_id)` pairs: inserts are guarded
by the uniqueness constraint, status updates do not touch the pair
columns, deletions only remove rows. -/
theorem ledgerStep_preserves_distinct (role : String)
    (l l' : List Registration) (hstep : LedgerStep role l l')
    (hinv : l.Pairwise (fun a b => samePair a b = false)) :
    l'.Pairwise (fun a b => samePair a b = false) := by
  cases hstep with
  | register new next hstatus hfresh hins =>
    unfold insertRegistrations at hins
    split at hins
    · exact absurd hins (by simp)
    · rename_i hcond
      have hnext : l ++ new = l' := by
        simpa using hins
      rw [← hnext]
      have hcross : (new.any fun r => l.any (samePair r)) = false := by
        revert hcond
        cases h : (new.any fun r => l.any (samePair r)) <;> simp
      have hdup : hasDupPair new = false := by
        revert hcond
        cases h : hasDupPair new <;> simp
      rw [List.pairwise_append]
      refine ⟨hinv, (hasDupPair_eq_false_iff new).mp hdup, fun a ha b hb => ?_⟩
      have := List.any_eq_false.mp hcross b hb
      have hba : l.any (samePair b) = false :=
        Bool.eq_false_iff.mpr this
      rw [samePair_comm]
      exact Bool.eq_false_iff.mpr (List.any_eq_false.mp hba a ha)
  | updateStatus regId newStatus hrole hnew hpend =>
    unfold updateRegistrationStatus
    have hmap : ∀ a b : Registration,
        samePair (if a.id == regId then { a with status := newStatus } else a)
            (if b.id == regId then { b with status := newStatus } else b)
          = samePair a b := by
      intro a b
      unfold samePair
      by_cases h1 : (a.id == regId) = true <;>
        by_cases h2 : (b.id == regId) = true <;> simp [h1, h2]
    rw [List.pairwise_map]
    exact hinv.imp (by
      intro a b h
      rw [hmap a b]
      exact h)
  | delete regId =>
    exact hinv.sublist (List.filter_sublist l)

/-- Reachable ledgers have pairwise-distinct `(student_id, sport_id)`
pairs. -/
theorem reachable_pairs_distinct (l : List Registration)
    (hreach : Reachable l) :
    l.Pairwise (fun a b => samePair a b = false) := by
  induction hreach with
  | init => exact List.Pairwise.nil
  | step role l l' _ hstep ih =>
    exact ledgerStep_preserves_distinct role l l' hstep ih

/-- A ledger with pairwise-distinct constraint pairs holds at most one
row per `(student, sport)` pair. -/
theorem pairsDistinct_filter_le_one (sid spid : String) :
    ∀ l : List Registration,
      l.Pairwise (fun a b => samePair a b = false) →
      (l.filter (fun r => r.student_id == sid &&
        r.sport_id == spid)).length ≤ 1 := by
  intro l
  induction l with
  | nil => intro _; simp
  | cons r rest ih =>
    intro hpw
    rw [List.pairwise_cons] at hpw
    by_cases hp : (r.student_id == sid && r.sport_id == spid) = true
    · rw [List.filter_cons_of_pos (p := fun r : Registration =>
          r.student_id == sid && r.sport_id == spid) hp]
      have hrest : rest.filter (fun r => r.student_id == sid &&
          r.sport_id == spid) = [] := by
        rw [List.filter_eq_nil_iff]
        intro x hx hpx
        rcases Bool.and_eq_true_iff.mp hp with ⟨hp1, hp2⟩
        rcases Bool.and_eq_true_iff.mp hpx with ⟨hx1, hx2⟩
        have : samePair r x = true := by
          unfold samePair
          rw [Bool.and_eq_true_iff]
          constructor
          · rw [beq_iff_eq] at hp1 hx1 ⊢
            rw [hp1, hx1]
          · rw [beq_iff_eq] at hp2 hx2 ⊢
            rw [hp2, hx2]
        rw [hpw.1 x hx] at this
        exact Bool.noConfusion this
      rw [hrest]
      exact Nat.le_refl 1
    · rw [List.filter_cons_of_neg (p := fun r : Registration =>
          r.student_id == sid && r.sport_id == spid) hp]
      exact ih hpw.2

/-- C4: in every reachable ledger state there is at most one registration
per `(student, sport)` pair — exactly one for the pair of any present
registration — and a batch containing a pair that is already present
fails with the duplicate error instead of updating anything (the
`Except.error` outcome carries no new ledger, so the caller keeps the old
state). -/
theorem registration_pair_unique (l : List Registration)
    (hreach : Reachable l) :
    (∀ sid spid : String,
       (l.filter (fun r => r.student_id == sid && r.sport_id == spid)).length
         ≤ 1) ∧
    (∀ r0 ∈ l,
       (l.filter (fun r => r.student_id == r0.student_id &&
          r.sport_id == r0.sport_id)).length = 1) ∧
    (∀ new : List Registration,
       (∃ r ∈ new, ∃ r0 ∈ l, samePair r r0 = true) →
       insertRegistrations l new = .error .duplicateRegistration) := by
  have hpw := reachable_pairs_distinct l hreach
  have hatmost : ∀ sid spid : String,
      (l.filter (fun r => r.student_id == sid &&
        r.sport_id == spid)).length ≤ 1 :=
    fun sid spid => pairsDistinct_filter_le_one sid spid l hpw
  refine ⟨hatmost, fun r0 hr0 => ?_, fun new hdup => ?_⟩
  · refine Nat.le_antisymm (hatmost r0.student_id r0.sport_id) ?_
    have : r0 ∈ l.filter (fun r => r.student_id == r0.student_id &&
        r.sport_id == r0.sport_id) :=
      List.mem_filter.mpr ⟨hr0, by simp⟩
    calc 1 = [r0].length := rfl
    _ ≤ _ := List.Sublist.length_le
      (List.singleton_sublist.mpr this)
  · unfold insertRegistrations
    rw [if_pos]
    rcases hdup with ⟨r, hr, r0, hr0, hpair⟩
    have h1 : (new.any fun r => l.any (samePair r)) = true := by
      rw [List.any_eq_true]
      exact ⟨r, hr, List.any_eq_true.mpr ⟨r0, hr0, hpair⟩⟩
    rw [h1, Bool.true_or]

/-- Witness for C4: the ledger holding one registration, reached by one
coordinator batch insert from the empty table. -/
theorem registration_pair_unique_witness :
    (∀ sid spid : String,
       ([regAshaChess].filter (fun r => r.student_id == sid &&
         r.sport_id == spid)).length ≤ 1) ∧
    (∀ r0 ∈ [regAshaChess],
       ([regAshaChess].filter (fun r => r.student_id == r0.student_id &&
          r.sport_id == r0.sport_id)).length = 1) ∧
    (∀ new : List Registration,
       (∃ r ∈ new, ∃ r0 ∈ [regAshaChess], samePair r r0 = true) →
       insertRegistrations [regAshaChess] new =
         .error .duplicateRegistration) :=
  registration_pair_unique [regAshaChess]
    (Reachable.step "first_year_coordinator" [] [regAshaChess] Reachable.init
      (LedgerStep.register "first_year_coordinator" [] [regAshaChess]
        [regAshaChess] (by decide) (by decide) rfl))

/-- An insert extends the ledger on the right, so any id found in the old
ledger keeps its status. -/
theorem statusOf_append (l new : List Registration) (regId : String)
    (st : RegStatus) (h : statusOf l regId = some st) :
    statusOf (l ++ new) regId = some st := by
  unfold statusOf at h ⊢
  rcases hf : l.find? (fun r => r.id == regId) with _ | r
  · rw [hf] at h
    exact Option.noConfusion h
  · rw [hf] at h
    rw [List.find?_append, hf]
    exact h

/-- The status update touches exactly the rows with the given id; looked
up afterwards, that id carries the new status (when present) and every
other id is unchanged. -/
theorem statusOf_updateRegistrationStatus (l : List Registration)
    (regId : String) (ns : RegStatus) :
    statusOf (updateRegistrationStatus l regId ns) regId
      = (statusOf l regId).map (fun _ => ns) := by
  unfold statusOf updateRegistrationStatus
  induction l with
  | nil => rfl
  | cons r rest ih =>
    by_cases h : (r.id == regId) = true
    · rw [List.map_cons, if_pos h,
        List.find?_cons_of_pos (p := fun r : Registration => r.id == regId)
          (a := { r with status := ns }) _ h,
        List.find?_cons_of_pos (p := fun r : Registration => r.id == regId)
          (a := r) _ h]
      rfl
    · rw [List.map_cons, if_neg h,
        List.find?_cons_of_neg (p := fun r : Registration => r.id == regId)
          (a := r) _ h,
        List.find?_cons_of_neg (p := fun r : Registration => r.id == regId)
          (a := r) _ h]
      exact ih

/-- A status update for one id leaves the lookup of every other id
unchanged. -/
theorem statusOf_updateRegistrationStatus_ne (l : List Registration)
    (rid regId : String) (ns : RegStatus) (hne : regId ≠ rid) :
    statusOf (updateRegistrationStatus l rid ns) regId
      = statusOf l regId := by
  unfold statusOf updateRegistrationStatus
  induction l with
  | nil => rfl
  | cons r rest ih =>
    by_cases h : (r.id == rid) = true
    · have hrid : r.id = rid := eq_of_beq h
      have hneq : ¬((r.id == regId) = true) := by
        intro hh
        exact hne ((eq_of_beq hh).symm.trans hrid)
      rw [List.map_cons, if_pos h,
        List.find?_cons_of_neg (p := fun r : Registration => r.id == regId)
          (a := { r with status := ns }) _ hneq,
        List.find?_cons_of_neg (p := fun r : Registration => r.id == regId)
          (a := r) _ hneq]
      exact ih
    · rw [List.map_cons, if_neg h]
      by_cases h2 : (r.id == regId) = true
      · rw [List.find?_cons_of_pos (p := fun r : Registration => r.id == regId) _ h2,
        List.find?_cons_of_pos (p := fun r : Registration => r.id == regId) _ h2]
      · rw [List.find?_cons_of_neg (p := fun r : Registration => r.id == regId) _ h2,
        List.find?_cons_of_neg (p := fun r : Registration => r.id == regId) _ h2]
        exact ih

/-- After deleting an id, looking that id up finds nothing. -/
theorem statusOf_deleteRegistration (l : List Registration)
    (regId : String) :
    statusOf (deleteRegistration l regId) regId = none := by
  unfold statusOf deleteRegistration
  rw [Option.map_eq_none', List.find?_eq_none]
  intro x hx
  have hkept := (List.mem_filter.mp hx).2
  intro hbeq
  rw [bne, hbeq] at hkept
  exact Bool.noConfusion hkept

/-- A deletion of one id leaves the lookup of every other id
unchanged. -/
theorem statusOf_deleteRegistration_ne (l : List Registration)
    (rid regId : String) (hne : regId ≠ rid) :
    statusOf (deleteRegistration l rid) regId = statusOf l regId := by
  unfold statusOf deleteRegistration
  induction l with
  | nil => rfl
  | cons r rest ih =>
    by_cases h : (r.id != rid) = true
    · rw [List.filter_cons_of_pos (p := fun r : Registration =>
          r.id != rid) h]
      by_cases h2 : (r.id == regId) = true
      · rw [List.find?_cons_of_pos (p := fun r : Registration => r.id == regId) _ h2,
        List.find?_cons_of_pos (p := fun r : Registration => r.id == regId) _ h2]
      · rw [List.find?_cons_of_neg (p := fun r : Registration => r.id == regId) _ h2,
        List.find?_cons_of_neg (p := fun r : Registration => r.id == regId) _ h2]
        exact ih
    · have hrid : r.id = rid := by
        rw [bne] at h
        rcases hb : (r.id == rid) with _ | _
        · rw [hb] at h
          exact absurd rfl h
        · exact eq_of_beq hb
      have hneq : ¬((r.id == regId) = true) := by
        intro hh
        exact hne ((eq_of_beq hh).symm.trans hrid)
      rw [List.filter_cons_of_neg (p := fun r : Registration =>
          r.id != rid) h,
        List.find?_cons_of_neg (p := fun r : Registration => r.id == regId) _ hneq]
      exact ih

/-- C8: across every application-level ledger operation, a registration
whose status changes must have been `pending` before, becomes `approved`
or `rejected` (never `pending` again), and the acting role is admin.
With the terminal statuses `approved` and `rejected` no operation offers
a way back to `pending`. -/
theorem status_transitions_admin_only (role : String)
    (l l' : List Registration) (regId : String) (st st' : RegStatus)
    (hstep : LedgerStep role l l')
    (h1 : statusOf l regId = some st) (h2 : statusOf l' regId = some st')
    (hne : st ≠ st') :
    st = RegStatus.pending ∧
    (st' = RegStatus.approved ∨ st' = RegStatus.rejected) ∧
    st' ≠ RegStatus.pending ∧
    role = ADMIN_ROLE := by
  cases hstep with
  | register new next hstatus hfresh hins =>
    unfold insertRegistrations at hins
    split at hins
    · exact absurd hins (by simp)
    · have hnext : l ++ new = l' := by
        simpa using hins
      rw [← hnext] at h2
      rw [statusOf_append l new regId st h1] at h2
      exact absurd (Option.some.inj h2) hne
  | updateStatus rid ns hrole hnew hpend =>
    by_cases hid : regId = rid
    · subst hid
      rw [statusOf_updateRegistrationStatus, h1, Option.map_some'] at h2
      have hst' : st' = ns := (Option.some.inj h2).symm
      have hstp : st = RegStatus.pending := by
        unfold statusOf at h1
        rcases hf : l.find? (fun r => r.id == regId) with _ | r
        · rw [hf] at h1
          exact Option.noConfusion h1
        · rw [hf, Option.map_some'] at h1
          have hmem := List.mem_of_find?_eq_some hf
          have hfp := List.find?_some hf
          have hrid : r.id = regId := eq_of_beq hfp
          rw [← Option.some.inj h1]
          exact hpend r hmem hrid
      refine ⟨hstp, ?_, ?_, hrole⟩
      · rw [hst']
        exact hnew
      · rw [hst']
        rcases hnew with h | h <;> rw [h] <;> intro hc <;>
          exact RegStatus.noConfusion hc
    · rw [statusOf_updateRegistrationStatus_ne l rid regId ns hid, h1] at h2
      exact absurd (Option.some.inj h2) hne
  | delete rid =>
    by_cases hid : regId = rid
    · subst hid
      rw [statusOf_deleteRegistration] at h2
      exact Option.noConfusion h2
    · rw [statusOf_deleteRegistration_ne l rid regId hid, h1] at h2
      exact absurd (Option.some.inj h2) hne

/-- Witness for C8: an admin approving a concrete pending registration. -/
theorem status_transitions_admin_only_witness :
    RegStatus.pending = RegStatus.pending ∧
    (RegStatus.approved = RegStatus.approved ∨
      RegStatus.approved = RegStatus.rejected) ∧
    RegStatus.approved ≠ RegStatus.pending ∧
    "admin" = ADMIN_ROLE :=
  status_transitions_admin_only "admin" [regAshaCarrom]
    (updateRegistrationStatus [regAshaCarrom] "n2" RegStatus.approved)
    "n2" RegStatus.pending RegStatus.approved
    (LedgerStep.updateStatus "admin" [regAshaCarrom] "n2" RegStatus.approved
      rfl (Or.inl rfl) (by decide))
    (by decide) (by decide) (by decide)

/-- C6: stripping the `_coordinator` and `_year` suffixes from each of the
four coordinator role strings yields that role's academic year, so a
coordinator's student query selects exactly the students of their year;
the admin visibility predicate is always true. -/
theorem coordinator_scope_matches_role_year :
    (deriveYear "first_year_coordinator" = "first" ∧
     deriveYear "second_year_coordinator" = "second" ∧
     deriveYear "third_year_coordinator" = "third" ∧
     deriveYear "fourth_year_coordinator" = "fourth") ∧
    (∀ students : List Student,
       fetchStudents "first_year_coordinator" students =
         students.filter (fun s => s.year == "first") ∧
       fetchStudents "second_year_coordinator" students =
         students.filter (fun s => s.year == "second") ∧
       fetchStudents "third_year_coordinator" students =
         students.filter (fun s => s.year == "third") ∧
       fetchStudents "fourth_year_coordinator" students =
         students.filter (fun s => s.year == "fourth")) ∧
    (∀ y : String,
       visibleTo "first_year_coordinator" y = (y == "first") ∧
       visibleTo "second_year_coordinator" y = (y == "second") ∧
       visibleTo "third_year_coordinator" y = (y == "third") ∧
       visibleTo "fourth_year_coordinator" y = (y == "fourth")) ∧
    (∀ y : String, visibleTo ADMIN_ROLE y = true) := by
  have h1 : deriveYear "first_year_coordinator" = "first" := by decide
  have h2 : deriveYear "second_year_coordinator" = "second" := by decide
  have h3 : deriveYear "third_year_coordinator" = "third" := by decide
  have h4 : deriveYear "fourth_year_coordinator" = "fourth" := by decide
  refine ⟨⟨h1, h2, h3, h4⟩, fun students => ⟨?_, ?_, ?_, ?_⟩,
    fun y => ⟨?_, ?_, ?_, ?_⟩, fun y => ?_⟩ <;>
    simp [fetchStudents, visibleTo, ADMIN_ROLE, h1, h2, h3, h4]

end SportsHub
